import Mathlib

/-!
# Verification of the CameraFeed prediction loop (src/src/CameraFeed.jsx)

A shallow embedding of the inference scheduler loop of the `CameraFeed`
component: the max-probability scan and door-state mapping inside `predict`
(lines 88-119), the per-cycle decision logic of `startPredictionLoop`
(lines 69-130), the lifecycle functions `startCamera` (lines 45-67) and
`stopCamera` (lines 132-141), and a trace semantics for runs of the
`requestAnimationFrame`-driven loop.

Probabilities are modelled as rationals (the source only compares them and
multiplies by 100); times (`Date.now()`) as integers in milliseconds;
`requestAnimationFrame` handles as natural numbers.
-/

namespace CameraFeed

/-- One entry of the ranked output list of the classifier: the source reads
`pred.className` and `pred.probability` from each element of `predArray`. -/
structure Pred where
  className : String
  probability : ℚ
  deriving Repr, DecidableEq

/-- The object built at lines 104-108 of the source
(`{ output, confidence, class }`); the JS field `class` is rendered `cls`
here because `class` is a Lean keyword. -/
structure OutputData where
  output : ℕ
  confidence : String
  cls : String
  deriving Repr, DecidableEq

/-- Accumulator of the `forEach` scan at lines 90-100:
`let maxProb = 0, maxIndex = 0, maxPred = null`. -/
structure ScanState where
  maxProb : ℚ
  maxIndex : ℕ
  maxPred : Option Pred
  deriving Repr, DecidableEq

/-- The body of the `forEach` at lines 94-100, visiting the entries in order
with a running index `n`: `if (pred.probability > maxProb) { maxProb = ...;
maxIndex = index; maxPred = pred; }`. -/
def scanGo (acc : ScanState) (n : ℕ) : List Pred → ScanState
  | [] => acc
  | p :: ps =>
      scanGo (if acc.maxProb < p.probability then ⟨p.probability, n, some p⟩ else acc)
        (n + 1) ps

/-- The whole scan at lines 90-100, starting from
`maxProb = 0, maxIndex = 0, maxPred = null`. -/
def maxScan (preds : List Pred) : ScanState :=
  scanGo ⟨0, 0, none⟩ 0 preds

/-- Model of JavaScript `x.toFixed(1)` for the non-negative exact rationals
that occur here: round to one decimal place and print as `"i.d"`. -/
def toFixed1 (q : ℚ) : String :=
  let n : ℤ := ⌊q * 10 + 1/2⌋
  toString (n / 10) ++ "." ++ toString (n % 10)

/-- Lines 88-117 of the source: given the result list of the classifier and
the previously displayed output and door state (the React states
`modelOutput` and `doorState`), produce the new displayed output and door
state. If `predArray.length > 0`, scan for the maximum, build `outputData`
(output is 0 when `maxIndex === 0` and 1 otherwise, confidence is
`(maxProb*100).toFixed(1)`, class is `maxPred.className` when `maxPred` is
non-null and "Unknown" otherwise), publish it via `setModelOutput`, and set
the door state to "open" when the output is 0 and to "closed" otherwise;
when the list is empty publish nothing. -/
def interpretPublish (preds : List Pred) (prevOut : Option OutputData)
    (prevDoor : String) : Option OutputData × String :=
  if preds.length > 0 then
    let sc := maxScan preds
    let output : ℕ := if sc.maxIndex = 0 then 0 else 1
    let outputData : OutputData :=
      ⟨output, toFixed1 (sc.maxProb * 100),
        match sc.maxPred with
        | some p => p.className
        | none => "Unknown"⟩
    (some outputData, if output = 0 then "open" else "closed")
  else
    (prevOut, prevDoor)

/-- Outcome of the awaited `modelRef.current.predict(videoRef.current)` call
at line 80: either it resolves with a result list (already converted to an
array, line 83), or it throws (caught at line 121). -/
inductive ClassifyOutcome
  | success (preds : List Pred)
  | failure
  deriving Repr, DecidableEq

/-- The component state visible to the scheduler loop and the lifecycle
functions: the refs (`videoRef.current`, `modelRef.current`,
`streamRef.current`, `predictionLoopRef.current`), the React states
(`isActive`, `error`, `doorState`, `modelOutput`, `modelLoaded`), the
closure variable `lastPredictionTime` of `startPredictionLoop`, plus two
bookkeeping fields: `pendingHandle` is the id of the one
`requestAnimationFrame` callback that is scheduled but has not yet fired
(`none` if there is none), and `predictionErrors` counts the
`console.error` calls of the catch block at line 122. -/
structure CompState where
  videoPresent : Bool
  modelPresent : Bool
  modelLoaded : Bool
  streamPresent : Bool
  isActive : Bool
  error : Option String
  doorState : String
  modelOutput : Option OutputData
  lastPredictionTime : ℤ
  loopHandle : Option ℕ
  pendingHandle : Option ℕ
  predictionErrors : ℕ
  deriving Repr, DecidableEq

/-- The guard under which `predict` reaches the classification call: the
outer condition at line 76 (`videoRef.current && modelRef.current &&
(now - lastPredictionTime) > predictionDelay` with `predictionDelay = 100`)
together with the readiness check at line 79 (`readyState ===
HAVE_ENOUGH_DATA`). -/
def cycleInvokes (s : CompState) (now : ℤ) (frameReady : Bool) : Bool :=
  s.videoPresent && s.modelPresent && decide (100 < now - s.lastPredictionTime) && frameReady

/-- Line 126 of the source, executed on every path through `predict`:
`predictionLoopRef.current = requestAnimationFrame(predict)`, which both
stores the fresh handle in the ref and makes it the pending callback. -/
def reschedule (s : CompState) (newHandle : ℕ) : CompState :=
  { s with loopHandle := some newHandle, pendingHandle := some newHandle }

/-- The continuation of `predict` after the awaited classification resolves
(lines 82-126): on success, convert and interpret the result, publish, and
set `lastPredictionTime = now` (line 119); on failure, `console.error` in
the catch block (line 122) and leave `lastPredictionTime` unchanged.
Either way line 126 reschedules the next cycle. -/
def resumeAfterClassify (s : CompState) (now : ℤ) (outcome : ClassifyOutcome)
    (newHandle : ℕ) : CompState :=
  match outcome with
  | .success preds =>
      let r := interpretPublish preds s.modelOutput s.doorState
      reschedule
        { s with modelOutput := r.1, doorState := r.2, lastPredictionTime := now }
        newHandle
  | .failure =>
      reschedule { s with predictionErrors := s.predictionErrors + 1 } newHandle

/-- One full uninterrupted execution of `predict` (lines 73-127): read `now`,
check the guards, classify if they hold, and reschedule at line 126. -/
def predictCycle (s : CompState) (now : ℤ) (frameReady : Bool)
    (outcome : ClassifyOutcome) (newHandle : ℕ) : CompState :=
  if cycleInvokes s now frameReady then
    resumeAfterClassify s now outcome newHandle
  else
    reschedule s newHandle

/-- `stopCamera` (lines 132-141): if `streamRef.current` is set, stop its
tracks, null the ref and `setIsActive(false)`; if `predictionLoopRef.current`
is set, `cancelAnimationFrame` it — which unschedules the callback only if
that very handle is still the pending one (a handle that has already fired
cannot be cancelled). `predictionLoopRef.current` itself is not nulled. -/
def stopCamera (s : CompState) : CompState :=
  let s1 :=
    if s.streamPresent then
      { s with streamPresent := false, isActive := false }
    else s
  if s1.loopHandle.isSome then
    { s1 with
      pendingHandle := if s1.pendingHandle = s1.loopHandle then none else s1.pendingHandle }
  else s1

/-- Outcome of the awaited `navigator.mediaDevices.getUserMedia` call at
lines 48-51: a stream, or a rejection with an error message. -/
inductive AcquireResult
  | success
  | failure (msg : String)
  deriving Repr, DecidableEq

/-- `startCamera` (lines 45-67): clear `error`, acquire the stream; on
success, if the video element is mounted, attach the stream, set
`isActive`, and start the prediction loop only `if (modelRef.current &&
modelLoaded)`; on rejection set the camera error and `setIsActive(false)`.
Returns the new state together with whether `startPredictionLoop` was
called. -/
def startCamera (s : CompState) (acq : AcquireResult) : CompState × Bool :=
  match acq with
  | .success =>
      if s.videoPresent then
        ({ s with error := none, streamPresent := true, isActive := true },
          s.modelPresent && s.modelLoaded)
      else
        ({ s with error := none }, false)
  | .failure msg =>
      ({ s with error := some ("Camera error: " ++ msg), isActive := false }, false)

/-- The notion used by the specification: index `k` holds the first
maximum-probability entry under a stable left-to-right scan, i.e. `k` is in
range, every entry is at most the entry at `k`, and every entry before `k`
is strictly below it. -/
def isFirstMax (preds : List Pred) (k : ℕ) : Prop :=
  ∃ hk : k < preds.length,
    (∀ j (hj : j < preds.length),
      (preds.get ⟨j, hj⟩).probability ≤ (preds.get ⟨k, hk⟩).probability) ∧
    (∀ j (hj : j < preds.length), j < k →
      (preds.get ⟨j, hj⟩).probability < (preds.get ⟨k, hk⟩).probability)

/-- One firing of `predict` in a run of the loop: it begins at time `startT`
(when `Date.now()` is read at line 74) and finishes at time `endT` (when
line 126 registers the next animation frame); `invoked` records whether the
guards let it reach the classification call, and `frameReady`, `outcome`
and `newHandle` are the environment inputs it observed. -/
structure Cycle where
  startT : ℤ
  endT : ℤ
  invoked : Bool
  frameReady : Bool
  outcome : ClassifyOutcome
  newHandle : ℕ
  deriving Repr, DecidableEq

/-- A run of the prediction loop from component state `s`, encoding the
control flow of lines 73-129: each cycle reads `now` at its start time and
decides via the guards of `cycleInvokes`; a cycle takes non-negative time,
and a cycle that does not invoke the classifier performs no await, so it
ends at the instant it starts; the `requestAnimationFrame` callback for the
next cycle is registered at line 126, i.e. at the end of the current cycle,
and fires no earlier than its registration — this is the code structure
that serialises cycles: the next cycle cannot begin before the awaited
classification of the current one has resolved. -/
inductive Run : CompState → List Cycle → Prop
  | nil (s : CompState) : Run s []
  | cons (s : CompState) (c : Cycle) (rest : List Cycle)
      (hinv : c.invoked = cycleInvokes s c.startT c.frameReady)
      (hse : c.startT ≤ c.endT)
      (hskip : c.invoked = false → c.endT = c.startT)
      (hnext : ∀ c' ∈ rest.head?, c.endT ≤ c'.startT)
      (hrest : Run (predictCycle s c.startT c.frameReady c.outcome c.newHandle) rest) :
      Run s (c :: rest)

/-- A classification issued by cycle `c` is outstanding at instant `t` when
the cycle invoked the classifier and `t` lies in the half-open interval
from the invocation to its resolution. -/
def inFlightAt (c : Cycle) (t : ℤ) : Prop :=
  c.invoked = true ∧ c.startT ≤ t ∧ t < c.endT

/-- A concrete component state with the camera running, the model loaded,
and the prediction loop mid-run: the animation-frame callback stored in
`predictionLoopRef` (id 1) has already fired and no further callback is
pending yet; the last successful prediction finished at time 0. -/
def runningState : CompState :=
  { videoPresent := true, modelPresent := true, modelLoaded := true,
    streamPresent := true, isActive := true, error := none,
    doorState := "closed", modelOutput := none, lastPredictionTime := 0,
    loopHandle := some 1, pendingHandle := none, predictionErrors := 0 }

/-- A concrete idle component state in which the model failed to load (or
has not finished loading): `modelRef.current` is null and `modelLoaded` is
false. -/
def idleNoModelState : CompState :=
  { videoPresent := true, modelPresent := false, modelLoaded := false,
    streamPresent := false, isActive := false, error := none,
    doorState := "closed", modelOutput := none, lastPredictionTime := 0,
    loopHandle := none, pendingHandle := none, predictionErrors := 0 }

/-! Analysis of the `forEach` scan: either no entry exceeds the initial
maximum and the accumulator is returned unchanged, or the scan returns the
first entry that is strictly greater than every earlier entry and at least
as great as every later one. -/

theorem scanGo_cases (ps : List Pred) : ∀ (acc : ScanState) (n : ℕ),
    ((∀ p ∈ ps, p.probability ≤ acc.maxProb) ∧ scanGo acc n ps = acc) ∨
    (∃ k, ∃ hk : k < ps.length,
      scanGo acc n ps =
        ⟨(ps.get ⟨k, hk⟩).probability, n + k, some (ps.get ⟨k, hk⟩)⟩ ∧
      acc.maxProb < (ps.get ⟨k, hk⟩).probability ∧
      (∀ j (hj : j < ps.length),
        (ps.get ⟨j, hj⟩).probability ≤ (ps.get ⟨k, hk⟩).probability) ∧
      (∀ j (hj : j < ps.length), j < k →
        (ps.get ⟨j, hj⟩).probability < (ps.get ⟨k, hk⟩).probability)) := by
  induction ps with
  | nil =>
      intro acc n
      exact Or.inl ⟨by simp, rfl⟩
  | cons p ps ih =>
      intro acc n
      by_cases hp : acc.maxProb < p.probability
      · have hstep : scanGo acc n (p :: ps) =
            scanGo ⟨p.probability, n, some p⟩ (n + 1) ps := by
          simp [scanGo, hp]
        rcases ih ⟨p.probability, n, some p⟩ (n + 1) with
          ⟨hall, heq⟩ | ⟨k, hk, heq, hlt, hle, hstrict⟩
        · refine Or.inr ⟨0, Nat.succ_pos _, ?_, hp, ?_, ?_⟩
          · rw [hstep, heq]; rfl
          · intro j hj
            cases j with
            | zero => exact le_refl _
            | succ j =>
                exact hall _ (ps.get_mem _ (Nat.lt_of_succ_lt_succ hj))
          · intro j hj hj0
            exact absurd hj0 (Nat.not_lt_zero j)
        · refine Or.inr ⟨k + 1, Nat.succ_lt_succ hk, ?_, lt_trans hp hlt, ?_, ?_⟩
          · rw [hstep, heq]
            have hnk : n + 1 + k = n + (k + 1) := by omega
            rw [hnk]; rfl
          · intro j hj
            cases j with
            | zero => exact le_of_lt hlt
            | succ j => exact hle j (Nat.lt_of_succ_lt_succ hj)
          · intro j hj hjk
            cases j with
            | zero => exact hlt
            | succ j =>
                exact hstrict j (Nat.lt_of_succ_lt_succ hj) (Nat.lt_of_succ_lt_succ hjk)
      · have hstep : scanGo acc n (p :: ps) = scanGo acc (n + 1) ps := by
          simp [scanGo, hp]
        rcases ih acc (n + 1) with
          ⟨hall, heq⟩ | ⟨k, hk, heq, hlt, hle, hstrict⟩
        · refine Or.inl ⟨?_, by rw [hstep, heq]⟩
          intro q hq
          rcases List.mem_cons.mp hq with rfl | hq
          · exact not_lt.mp hp
          · exact hall q hq
        · refine Or.inr ⟨k + 1, Nat.succ_lt_succ hk, ?_, hlt, ?_, ?_⟩
          · rw [hstep, heq]
            have hnk : n + 1 + k = n + (k + 1) := by omega
            rw [hnk]; rfl
          · intro j hj
            cases j with
            | zero => exact le_trans (not_lt.mp hp) (le_of_lt hlt)
            | succ j => exact hle j (Nat.lt_of_succ_lt_succ hj)
          · intro j hj hjk
            cases j with
            | zero => exact lt_of_le_of_lt (not_lt.mp hp) hlt
            | succ j =>
                exact hstrict j (Nat.lt_of_succ_lt_succ hj) (Nat.lt_of_succ_lt_succ hjk)

/-- When no entry has positive probability the scan returns its initial
accumulator: `maxPred` stays null, `maxIndex` stays 0 and `maxProb` stays
0 (the comparison at line 95 is strict). -/
theorem maxScan_all_le_zero (preds : List Pred)
    (h : ∀ p ∈ preds, p.probability ≤ 0) : maxScan preds = ⟨0, 0, none⟩ := by
  rcases scanGo_cases preds ⟨0, 0, none⟩ 0 with ⟨_, heq⟩ | ⟨k, hk, _, hlt, _, _⟩
  · exact heq
  · exact absurd hlt (not_lt.mpr (h _ (preds.get_mem _ hk)))

/-- When some entry has positive probability, the scan selects exactly the
first maximum-probability entry. -/
theorem maxScan_pos (preds : List Pred) (h : ∃ p ∈ preds, 0 < p.probability) :
    ∃ k, ∃ hk : k < preds.length,
      maxScan preds =
        ⟨(preds.get ⟨k, hk⟩).probability, k, some (preds.get ⟨k, hk⟩)⟩ ∧
      (∀ j (hj : j < preds.length),
        (preds.get ⟨j, hj⟩).probability ≤ (preds.get ⟨k, hk⟩).probability) ∧
      (∀ j (hj : j < preds.length), j < k →
        (preds.get ⟨j, hj⟩).probability < (preds.get ⟨k, hk⟩).probability) := by
  rcases scanGo_cases preds ⟨0, 0, none⟩ 0 with ⟨hall, _⟩ | ⟨k, hk, heq, _, hle, hstrict⟩
  · rcases h with ⟨p, hp, hpos⟩
    exact absurd hpos (not_lt.mpr (hall p hp))
  · refine ⟨k, hk, ?_, hle, hstrict⟩
    rw [maxScan, heq]
    have h0k : 0 + k = k := by omega
    rw [h0k]

/-- The display formatting of a zero confidence: `(0).toFixed(1)` is the
string "0.0". -/
theorem toFixed1_zero : toFixed1 0 = "0.0" := by
  have h : ⌊(0 : ℚ) * 10 + 1 / 2⌋ = 0 := by norm_num
  simp only [toFixed1, h]
  decide

/-- The `maxProb` and `maxIndex` components of the scan depend only on the
probability sequence, never on the labels. -/
theorem scanGo_probs : ∀ (l₁ l₂ : List Pred),
    l₁.map Pred.probability = l₂.map Pred.probability →
    ∀ (acc₁ acc₂ : ScanState) (n : ℕ),
      acc₁.maxProb = acc₂.maxProb → acc₁.maxIndex = acc₂.maxIndex →
      (scanGo acc₁ n l₁).maxProb = (scanGo acc₂ n l₂).maxProb ∧
      (scanGo acc₁ n l₁).maxIndex = (scanGo acc₂ n l₂).maxIndex := by
  intro l₁
  induction l₁ with
  | nil =>
      intro l₂ h acc₁ acc₂ n h1 h2
      have : l₂ = [] := by
        cases l₂ with
        | nil => rfl
        | cons q l => simp at h
      subst this
      exact ⟨h1, h2⟩
  | cons p l₁ ih =>
      intro l₂ h acc₁ acc₂ n h1 h2
      cases l₂ with
      | nil => simp at h
      | cons q l₂ =>
          simp only [List.map_cons, List.cons.injEq] at h
          rcases h with ⟨hpq, htl⟩
          show (scanGo (if acc₁.maxProb < p.probability then ⟨p.probability, n, some p⟩ else acc₁)
                  (n + 1) l₁).maxProb = _ ∧ _
          by_cases hc : acc₁.maxProb < p.probability
          · have hc' : acc₂.maxProb < q.probability := by rw [← h1, ← hpq]; exact hc
            simp only [scanGo, if_pos hc, if_pos hc']
            exact ih l₂ htl _ _ (n + 1) hpq rfl
          · have hc' : ¬acc₂.maxProb < q.probability := by rw [← h1, ← hpq]; exact hc
            simp only [scanGo, if_neg hc, if_neg hc']
            exact ih l₂ htl _ _ (n + 1) h1 h2

/-- On a non-empty result list the published door state is "open" exactly
when the scan ended with `maxIndex = 0`, and "closed" otherwise (lines
102-116). -/
theorem interpretPublish_door (preds : List Pred) (prevOut : Option OutputData)
    (prevDoor : String) (hlen : 0 < preds.length) :
    (interpretPublish preds prevOut prevDoor).2 =
      if (maxScan preds).maxIndex = 0 then "open" else "closed" := by
  by_cases h0 : (maxScan preds).maxIndex = 0 <;>
    simp [interpretPublish, hlen, h0]

/-- Every cycle of a run takes non-negative time. -/
theorem run_start_le_end (s : CompState) (cs : List Cycle) (h : Run s cs) :
    ∀ (k : ℕ) (hk : k < cs.length),
      (cs.get ⟨k, hk⟩).startT ≤ (cs.get ⟨k, hk⟩).endT := by
  induction h with
  | nil => intro k hk; exact absurd hk (by simp)
  | cons s c rest hinv hse hskip hnext hrest ih =>
      intro k hk
      cases k with
      | zero => exact hse
      | succ k => exact ih k (Nat.lt_of_succ_lt_succ hk)

/-- Cycles of a run are serialised: an earlier cycle has ended by the time a
later one starts, because the animation frame driving the later cycle is
only registered at line 126, after the awaited classification of the
earlier cycle has resolved. -/
theorem run_end_le_start (s : CompState) (cs : List Cycle) (h : Run s cs) :
    ∀ (i j : ℕ) (hi : i < cs.length) (hj : j < cs.length), i < j →
      (cs.get ⟨i, hi⟩).endT ≤ (cs.get ⟨j, hj⟩).startT := by
  induction h with
  | nil => intro i j hi; exact absurd hi (by simp)
  | cons s c rest hinv hse hskip hnext hrest ih =>
      intro i j hi hj hij
      cases i with
      | succ i =>
          cases j with
          | zero => omega
          | succ j =>
              exact ih i j (Nat.lt_of_succ_lt_succ hi) (Nat.lt_of_succ_lt_succ hj)
                (by omega)
      | zero =>
          cases j with
          | zero => omega
          | succ j =>
              have hj' : j < rest.length := Nat.lt_of_succ_lt_succ hj
              cases rest with
              | nil => exact absurd hj' (by simp)
              | cons r rs =>
                  have h0 : c.endT ≤ r.startT := hnext r rfl
                  cases j with
                  | zero => exact h0
                  | succ j' =>
                      have h1 : r.endT ≤ ((r :: rs).get ⟨j' + 1, hj'⟩).startT :=
                        ih 0 (j' + 1) (by simp) hj' (Nat.succ_pos _)
                      have h2 : r.startT ≤ r.endT :=
                        run_start_le_end _ _ hrest 0 (by simp)
                      exact le_trans h0 (le_trans h2 h1)

/-- C2 (confirmed). For every run of the prediction loop, at most one
classifier invocation is outstanding at any instant: two distinct cycles of
the run are never both in flight at the same time `t`, even when animation
frames are requested faster than classifications resolve — the next frame
is only registered after the awaited classification completes. -/
theorem C2_no_overlapping_classifications (s : CompState) (cs : List Cycle)
    (h : Run s cs) (i j : ℕ) (hi : i < cs.length) (hj : j < cs.length)
    (hij : i ≠ j) (t : ℤ) :
    ¬(inFlightAt (cs.get ⟨i, hi⟩) t ∧ inFlightAt (cs.get ⟨j, hj⟩) t) := by
  rintro ⟨⟨_, hsi, hei⟩, ⟨_, hsj, hej⟩⟩
  rcases lt_or_gt_of_ne hij with hlt | hlt
  · have := run_end_le_start s cs h i j hi hj hlt
    omega
  · have := run_end_le_start s cs h j i hj hi hlt
    omega

/-- C2 witness: a concrete two-cycle run in which both cycles invoke the
classifier; at the concrete instant 205 the two classifications are not
both outstanding. -/
theorem C2_witness :
    ¬(inFlightAt ⟨200, 230, true, true, .success [], 1⟩ 205 ∧
      inFlightAt ⟨400, 410, true, true, .success [], 2⟩ 205) := by
  have hrun : Run runningState
      [⟨200, 230, true, true, .success [], 1⟩,
       ⟨400, 410, true, true, .success [], 2⟩] := by
    refine Run.cons _ _ _ (by decide) (by decide) (by decide) ?_ ?_
    · intro c' hc'
      simp only [List.head?_cons, Option.mem_def, Option.some.injEq] at hc'
      subst hc'
      decide
    · refine Run.cons _ _ _ (by decide) (by decide) (by decide) ?_ (Run.nil _)
      intro c' hc'
      simp at hc'
  exact C2_no_overlapping_classifications runningState _ hrun 0 1
    (by decide) (by decide) (by decide) 205

/-- C3 counterexample: on the one-entry result list with label "a" and
probability exactly 0, the first maximum-probability entry is the entry at
index 0 with label "a", yet the published top label is "Unknown" — the
strict comparison against the initial maximum 0 never selects an entry. -/
theorem C3_counterexample :
    isFirstMax [⟨"a", 0⟩] 0 ∧
    ([(⟨"a", 0⟩ : Pred)].get ⟨0, by decide⟩).className = "a" ∧
    (interpretPublish [⟨"a", 0⟩] none "closed").1 = some ⟨0, "0.0", "Unknown"⟩ ∧
    ("Unknown" : String) ≠ "a" := by
  refine ⟨⟨by decide, ?_, ?_⟩, rfl, ?_, by decide⟩
  · intro j hj
    simp only [List.length_cons, List.length_nil] at hj
    have hj0 : j = 0 := by omega
    subst hj0
    exact le_refl _
  · intro j hj hjk
    exact absurd hjk (by omega)
  · have hscan : maxScan [(⟨"a", 0⟩ : Pred)] = ⟨0, 0, none⟩ := by
      refine maxScan_all_le_zero _ ?_
      intro p hp
      rcases List.mem_singleton.mp hp with rfl
      exact le_refl 0
    simp [interpretPublish, hscan, toFixed1_zero]

/-- C3 (corrected): for every non-empty ClassificationResult in which some
entry has positive probability, the published top label equals the label of
the first maximum-probability entry under a stable left-to-right scan; when
probabilities are exactly equal the earliest index wins. -/
theorem C3_first_max_label (preds : List Pred) (prevOut : Option OutputData)
    (prevDoor : String) (hne : preds ≠ [])
    (hpos : ∃ p ∈ preds, 0 < p.probability) :
    ∃ k, ∃ hk : k < preds.length, isFirstMax preds k ∧
      ∃ od : OutputData,
        (interpretPublish preds prevOut prevDoor).1 = some od ∧
        od.cls = (preds.get ⟨k, hk⟩).className := by
  rcases maxScan_pos preds hpos with ⟨k, hk, heq, hle, hstrict⟩
  have hlen : 0 < preds.length := List.length_pos.mpr hne
  refine ⟨k, hk, ⟨hk, hle, hstrict⟩,
    ⟨(if k = 0 then 0 else 1),
      toFixed1 ((preds.get ⟨k, hk⟩).probability * 100),
      (preds.get ⟨k, hk⟩).className⟩, ?_, rfl⟩
  simp [interpretPublish, heq, hlen]

/-- C3 witness: on the example list from the specification — A at 0.4 then B
and C both at 0.9 — the published label is that of the first maximum entry. -/
theorem C3_witness :
    ∃ k, ∃ hk : k < ([⟨"A", 2/5⟩, ⟨"B", 9/10⟩, ⟨"C", 9/10⟩] : List Pred).length,
      isFirstMax [⟨"A", 2/5⟩, ⟨"B", 9/10⟩, ⟨"C", 9/10⟩] k ∧
      ∃ od : OutputData,
        (interpretPublish [⟨"A", 2/5⟩, ⟨"B", 9/10⟩, ⟨"C", 9/10⟩] none "closed").1 =
          some od ∧
        od.cls =
          (([⟨"A", 2/5⟩, ⟨"B", 9/10⟩, ⟨"C", 9/10⟩] : List Pred).get ⟨k, hk⟩).className :=
  C3_first_max_label _ _ _ (by decide)
    ⟨⟨"B", 9/10⟩, List.mem_cons_of_mem _ (List.mem_cons_self _ _), by norm_num⟩

/-- C5 (confirmed): a cycle whose classification resolves with an empty
result list publishes nothing — the displayed output and the door state are
exactly what they were before the cycle, with no crash and no transition to
a null output. -/
theorem C5_empty_result_publishes_nothing (s : CompState) (now : ℤ)
    (ready : Bool) (newHandle : ℕ) :
    (predictCycle s now ready (.success []) newHandle).modelOutput = s.modelOutput ∧
    (predictCycle s now ready (.success []) newHandle).doorState = s.doorState := by
  cases hc : cycleInvokes s now ready
  · simp [predictCycle, hc, reschedule]
  · simp [predictCycle, hc, resumeAfterClassify, interpretPublish, reschedule]

/-- C10 (confirmed): on a non-empty result list whose probabilities are all
exactly 0, a prediction is still published, and because the scan compares
strictly against an initial maximum of 0 it selects no entry: the published
class name is "Unknown", the output is 0, the confidence string is "0.0",
and the door state becomes "open". -/
theorem C10_all_zero_unknown (preds : List Pred) (prevOut : Option OutputData)
    (prevDoor : String) (hne : preds ≠ [])
    (hz : ∀ p ∈ preds, p.probability = 0) :
    interpretPublish preds prevOut prevDoor =
      (some ⟨0, "0.0", "Unknown"⟩, "open") := by
  have hscan : maxScan preds = ⟨0, 0, none⟩ :=
    maxScan_all_le_zero preds (fun p hp => le_of_eq (hz p hp))
  have hlen : 0 < preds.length := List.length_pos.mpr hne
  simp [interpretPublish, hscan, hlen, toFixed1_zero]

/-- C10 witness: a concrete two-entry all-zero result list publishes the
"Unknown" prediction with output 0 and door state "open". -/
theorem C10_witness :
    interpretPublish [⟨"x", 0⟩, ⟨"y", 0⟩] none "closed" =
      (some ⟨0, "0.0", "Unknown"⟩, "open") :=
  C10_all_zero_unknown _ _ _ (by decide) (by decide)

/-- C4 counterexample: in a running state whose last invocation happened at
time 0, a cycle fired at time 100 — exactly minInterval later, with the
video and model refs present and the frame ready — does not invoke the
classifier, although the claim ("at least 100 ms elapsed, not in flight,
frame ready") says it must: the comparison at line 76 is strict. -/
theorem C4_counterexample :
    runningState.videoPresent = true ∧ runningState.modelPresent = true ∧
    (100 : ℤ) - runningState.lastPredictionTime ≥ 100 ∧
    cycleInvokes runningState 100 true = false := by decide

/-- C4 (corrected): the classifier is invoked exactly when the video and
model refs are present, strictly more than minInterval (100 ms) has elapsed
since the recorded last invocation, and the frame is ready; the recorded
timestamp is set to the current cycle reading of now on successful
completion of the classification, and is left unchanged by skipped cycles
and by classifications that throw; consequently two cycles fired 30 ms
apart produce at most one classification call when the first call does not
throw — while after a thrown call the next cycle 30 ms later may invoke
again. -/
theorem C4_rate_limit :
    (∀ (s : CompState) (now : ℤ) (ready : Bool),
      cycleInvokes s now ready = true ↔
        (s.videoPresent = true ∧ s.modelPresent = true ∧
          100 < now - s.lastPredictionTime ∧ ready = true)) ∧
    (∀ (s : CompState) (now : ℤ) (ready : Bool) (preds : List Pred) (nh : ℕ),
      cycleInvokes s now ready = true →
        (predictCycle s now ready (.success preds) nh).lastPredictionTime = now) ∧
    (∀ (s : CompState) (now : ℤ) (ready : Bool) (out : ClassifyOutcome) (nh : ℕ),
      cycleInvokes s now ready = false ∨ out = .failure →
        (predictCycle s now ready out nh).lastPredictionTime =
          s.lastPredictionTime) ∧
    (∀ (s : CompState) (t : ℤ) (r₁ r₂ : Bool) (preds : List Pred) (nh₁ nh₂ : ℕ),
      cycleInvokes s t r₁ = true →
        cycleInvokes (predictCycle s t r₁ (.success preds) nh₁) (t + 30) r₂ =
          false) ∧
    (∃ (s : CompState) (t : ℤ) (nh : ℕ),
      cycleInvokes s t true = true ∧
      cycleInvokes (predictCycle s t true .failure nh) (t + 30) true = true) := by
  refine ⟨?_, ?_, ?_, ?_, ?_⟩
  · intro s now ready
    simp [cycleInvokes, and_assoc]
  · intro s now ready preds nh h
    simp [predictCycle, h, resumeAfterClassify, reschedule]
  · intro s now ready out nh h
    rcases h with h | rfl
    · simp [predictCycle, h, reschedule]
    · cases hc : cycleInvokes s now ready
      · simp [predictCycle, hc, reschedule]
      · simp [predictCycle, hc, resumeAfterClassify, reschedule]
  · intro s t r₁ r₂ preds nh₁ nh₂ hinv
    have hlast : (predictCycle s t r₁ (.success preds) nh₁).lastPredictionTime = t := by
      simp [predictCycle, hinv, resumeAfterClassify, reschedule]
    simp only [cycleInvokes, hlast]
    have h30 : ¬(100 < t + 30 - t) := by omega
    simp [h30]
  · refine ⟨runningState, 200, 1, by decide, ?_⟩
    decide

/-- C4 witness: at a concrete running state with last invocation at time 0,
a cycle at time 200 invokes; after its successful completion the timestamp
is 200, and a cycle fired 30 ms later, at time 230, does not invoke. -/
theorem C4_witness :
    cycleInvokes runningState 200 true = true ∧
    (predictCycle runningState 200 true (.success []) 5).lastPredictionTime = 200 ∧
    cycleInvokes (predictCycle runningState 200 true (.success []) 5)
      (200 + 30) true = false := by
  refine ⟨?_, ?_, ?_⟩
  · exact (C4_rate_limit.1 runningState 200 true).mpr (by decide)
  · exact C4_rate_limit.2.1 runningState 200 true [] 5 (by decide)
  · exact C4_rate_limit.2.2.2.1 runningState 200 true true [] 5 5 (by decide)

/-- C6 (confirmed): a cycle whose classification call throws reports the
error (the console-error count increases by one), publishes nothing — the
displayed output and door state are unchanged — and still registers the
next animation frame, so the loop continues. -/
theorem C6_failure_recovered (s : CompState) (now : ℤ) (ready : Bool)
    (newHandle : ℕ) (hinv : cycleInvokes s now ready = true) :
    (predictCycle s now ready .failure newHandle).modelOutput = s.modelOutput ∧
    (predictCycle s now ready .failure newHandle).doorState = s.doorState ∧
    (predictCycle s now ready .failure newHandle).predictionErrors =
      s.predictionErrors + 1 ∧
    (predictCycle s now ready .failure newHandle).pendingHandle = some newHandle ∧
    (predictCycle s now ready .failure newHandle).loopHandle = some newHandle := by
  simp [predictCycle, hinv, resumeAfterClassify, reschedule]

/-- C6 witness: the failure theorem evaluated at a concrete invoking cycle. -/
theorem C6_witness :
    (predictCycle runningState 200 true .failure 5).modelOutput =
      runningState.modelOutput ∧
    (predictCycle runningState 200 true .failure 5).doorState =
      runningState.doorState ∧
    (predictCycle runningState 200 true .failure 5).predictionErrors =
      runningState.predictionErrors + 1 ∧
    (predictCycle runningState 200 true .failure 5).pendingHandle = some 5 ∧
    (predictCycle runningState 200 true .failure 5).loopHandle = some 5 :=
  C6_failure_recovered runningState 200 true 5 (by decide)

/-- C7 counterexample: with the model not loaded and the camera acquisition
succeeding, startCamera is not a no-op — the state changes, isActive
becomes true and no error is recorded — and it does not fail with a
NotReady condition; only the prediction loop is withheld. -/
theorem C7_counterexample :
    (startCamera idleNoModelState .success).1 ≠ idleNoModelState ∧
    (startCamera idleNoModelState .success).1.isActive = true ∧
    (startCamera idleNoModelState .success).1.error = none ∧
    (startCamera idleNoModelState .success).2 = false := by decide

/-- C7 (corrected): if the Classifier is not loaded when start() is called,
the prediction loop refuses to start for that call and no error is raised
on its account (no crash); but start() is neither a no-op nor a NotReady
failure — on successful acquisition the camera still starts. -/
theorem C7_model_not_loaded (s : CompState) (acq : AcquireResult)
    (h : s.modelLoaded = false) :
    (startCamera s acq).2 = false ∧
    (acq = .success → (startCamera s acq).1.error = none) := by
  cases acq with
  | success =>
      by_cases hv : s.videoPresent = true <;> simp [startCamera, h, hv]
  | failure msg => simp [startCamera]

/-- C7 witness: the corrected statement evaluated at the concrete
model-not-loaded state with a successful acquisition. -/
theorem C7_witness :
    (startCamera idleNoModelState .success).2 = false ∧
    (AcquireResult.success = .success →
      (startCamera idleNoModelState .success).1.error = none) :=
  C7_model_not_loaded idleNoModelState .success rfl

/-- C8 (confirmed): the door state of a published prediction is a fixed
function of the winning index alone — maxIndex 0 yields "open", any other
index yields "closed" — and it is invariant under any change of the textual
labels that preserves the probability sequence. -/
theorem C8_fixed_index_mapping (preds : List Pred) (prevOut : Option OutputData)
    (prevDoor : String) (hne : preds ≠ []) :
    ((maxScan preds).maxIndex = 0 →
      (interpretPublish preds prevOut prevDoor).2 = "open") ∧
    ((maxScan preds).maxIndex ≠ 0 →
      (interpretPublish preds prevOut prevDoor).2 = "closed") ∧
    (∀ preds' : List Pred,
      preds.map Pred.probability = preds'.map Pred.probability →
      (interpretPublish preds prevOut prevDoor).2 =
        (interpretPublish preds' prevOut prevDoor).2) := by
  have hlen : 0 < preds.length := List.length_pos.mpr hne
  refine ⟨?_, ?_, ?_⟩
  · intro h0
    rw [interpretPublish_door _ _ _ hlen, if_pos h0]
  · intro h0
    rw [interpretPublish_door _ _ _ hlen, if_neg h0]
  · intro preds' hmap
    have hlen' : 0 < preds'.length := by
      have hl := congrArg List.length hmap
      simp only [List.length_map] at hl
      omega
    have hidx := (scanGo_probs preds preds' hmap ⟨0, 0, none⟩ ⟨0, 0, none⟩ 0 rfl rfl).2
    rw [interpretPublish_door _ _ _ hlen, interpretPublish_door _ _ _ hlen']
    simp only [maxScan]
    simp only [hidx]

/-- C8 witness: a winning index 0 yields the door state "open" at a concrete
single-entry result list, whatever its label. -/
theorem C8_witness :
    (interpretPublish [⟨"whatever text", 1⟩] none "closed").2 = "open" := by
  have h := C8_fixed_index_mapping [⟨"whatever text", 1⟩] none "closed" (by decide)
  exact h.1 (by decide)

/-- C9 (confirmed): stopCamera is idempotent — for every component state,
calling it twice in succession leaves exactly the state reached after
calling it once; in particular releasing the camera stream twice is safe. -/
theorem C9_stop_idempotent (s : CompState) :
    stopCamera (stopCamera s) = stopCamera s := by
  rcases s with ⟨v, m, ml, str, act, err, door, out, last, lh, ph, pe⟩
  cases str <;> cases lh <;> simp [stopCamera] <;> split_ifs <;> simp_all

/-- C1 (code bug demonstration): in a running state with an in-flight
classification (the stored animation-frame handle 1 has already fired, none
is pending), stopCamera is called during the await; when the classification
then resolves with a confident result, the loop code nevertheless publishes
it — the displayed output changes and the door state flips to "open" — and
registers a fresh animation frame (handle 2 becomes pending), because the
cancelAnimationFrame at line 139 cancelled a handle that had already fired.
The specification requires the result to be discarded and no further cycle
to be scheduled. -/
theorem C1_stop_inflight_bug :
    cycleInvokes runningState 200 true = true ∧
    runningState.modelOutput = none ∧
    runningState.doorState = "closed" ∧
    (resumeAfterClassify (stopCamera runningState) 200
      (.success [⟨"open", 9/10⟩]) 2).modelOutput = some ⟨0, "90.0", "open"⟩ ∧
    (resumeAfterClassify (stopCamera runningState) 200
      (.success [⟨"open", 9/10⟩]) 2).doorState = "open" ∧
    (resumeAfterClassify (stopCamera runningState) 200
      (.success [⟨"open", 9/10⟩]) 2).pendingHandle = some 2 := by
  have hscan : maxScan [(⟨"open", 9/10⟩ : Pred)] =
      ⟨9/10, 0, some ⟨"open", 9/10⟩⟩ := by
    show scanGo ⟨0, 0, none⟩ 0 [⟨"open", 9/10⟩] = _
    rw [scanGo, if_pos (by norm_num : (0:ℚ) < 9/10)]
    rfl
  have hconf : toFixed1 ((9:ℚ)/10 * 100) = "90.0" := by
    have h : ⌊(9:ℚ)/10 * 100 * 10 + 1/2⌋ = 900 := by norm_num
    simp only [toFixed1, h]
    decide
  refine ⟨by decide, rfl, rfl, ?_, ?_, ?_⟩ <;>
    simp [resumeAfterClassify, interpretPublish, hscan, hconf, stopCamera,
      runningState, reschedule]

end CameraFeed
